import Mathlib

/-!
Verification of the question-boundary detector and transcript delta
extractor of the AI-Assistant repository.

Strings are modelled as `List Char`; Python float arithmetic on loudness
and durations is modelled with exact rationals (`ℚ`); the mutable
detector / extractor state is passed explicitly.
-/

set_option linter.unusedVariables false

/-- Python's `str.strip` whitespace set (ASCII fragment). -/
def isSpaceChar (c : Char) : Bool :=
  c = ' ' || c = '\t' || c = '\n' || c = '\r' || c = '\x0b' || c = '\x0c'

/-- Python `str.lstrip()`. -/
def pyLStrip (s : List Char) : List Char := s.dropWhile isSpaceChar

/-- Python `str.rstrip()`. -/
def pyRStrip (s : List Char) : List Char := (s.reverse.dropWhile isSpaceChar).reverse

/-- Python `str.strip()`. -/
def pyStrip (s : List Char) : List Char := pyRStrip (pyLStrip s)

/-- Python `str.lower()` (ASCII fragment). -/
def toLowerL (s : List Char) : List Char := s.map Char.toLower

/-- Python `pat in s` substring test. -/
def containsSub (s pat : List Char) : Bool :=
  match s with
  | [] => pat.isEmpty
  | _ :: cs => pat.isPrefixOf s || containsSub cs pat

/-- `re.findall(r"\b\w+\b", text)` word characters: `[A-Za-z0-9_]`. -/
def isWordChar (c : Char) : Bool := c.isAlphanum || c = '_'

/-- Helper for `_word_count`: counts maximal word-character runs;
`inside` records whether the previous character was a word character. -/
def wordCountAux (inside : Bool) : List Char → Nat
  | [] => 0
  | c :: cs =>
    if isWordChar c then (if inside then 0 else 1) + wordCountAux true cs
    else wordCountAux false cs

/-- `_word_count(text)`: number of maximal runs of word characters,
as counted by `re.findall(r"\b\w+\b", text)`. -/
def word_count (t : List Char) : Nat := wordCountAux false t

/-! ### Transcript delta extractor (`TranscriptionWorker` in `main.py`) -/

/-- `TranscriptionWorker._longest_overlap` search loop:
`for size in range(n, 0, -1): if previous[-size:] == current[:size]: return size`. -/
def longestOverlapAux (previous current : List Char) : Nat → Nat
  | 0 => 0
  | n + 1 =>
    if previous.drop (previous.length - (n + 1)) = current.take (n + 1) then n + 1
    else longestOverlapAux previous current n

/-- `TranscriptionWorker._longest_overlap(previous, current)`. -/
def longest_overlap (previous current : List Char) : Nat :=
  longestOverlapAux previous current (min previous.length current.length)

/-- The `addition` computation of `_extract_new_text` (the
`if previous and cleaned.startswith(previous) … elif previous … else`
block), on the already-stripped previous transcript and raw text. -/
def extractAddition (previous cleaned : List Char) : List Char :=
  if previous ≠ [] ∧ previous.isPrefixOf cleaned = true then
    pyStrip (cleaned.drop previous.length)
  else if previous ≠ [] then
    pyStrip (cleaned.drop (longest_overlap previous cleaned))
  else cleaned

/-- `TranscriptionWorker._extract_new_text(transcript)`; the first
component is the returned delta, the second the updated
`self._previous_transcript` state (unchanged when `raw` strips to
empty, since the method returns before the assignment). -/
def extract_new_text (prevTranscript raw : List Char) : List Char × List Char :=
  if pyStrip raw = [] then ([], prevTranscript)
  else (extractAddition (pyStrip prevTranscript) (pyStrip raw), pyStrip raw)

/-! ### Question boundary detector (`question_detection.py`) -/

/-- Configuration fields of `QuestionBoundaryDetector`. -/
structure DetectorConfig where
  min_question_words : Nat
  speech_threshold : ℚ
  min_silence_seconds : ℚ
  max_buffer_words : Nat
  question_prefixes : List (List Char)
  question_suffixes : List (List Char)
deriving DecidableEq

/-- Default configuration of `QuestionBoundaryDetector`. -/
def defaultCfg : DetectorConfig :=
  { min_question_words := 4
    speech_threshold := 0.012
    min_silence_seconds := 0.7
    max_buffer_words := 120
    question_prefixes :=
      ["what", "why", "how", "when", "where", "who", "which", "tell me",
       "could you", "would you", "do you", "can you", "walk me", "share",
       "describe"].map String.toList
    question_suffixes :=
      ["?", "right", "correct", "okay", "ok", "yeah", "please"].map String.toList }

/-- Mutable state of `QuestionBoundaryDetector`. -/
structure DetectorState where
  segments : List (List Char)
  question_active : Bool
  explicit_question : Bool
  silence_accumulator : ℚ
deriving DecidableEq

/-- The state installed by `reset()` / `__post_init__`. -/
def initialState : DetectorState :=
  { segments := []
    question_active := false
    explicit_question := false
    silence_accumulator := 0 }

/-- `QuestionBoundaryDetector.reset()`. -/
def reset (st : DetectorState) : DetectorState := initialState

/-- `QuestionBoundaryDetector.current_text`:
`" ".join(self._segments).strip()`. -/
def current_text (st : DetectorState) : List Char :=
  pyStrip (List.intercalate [' '] st.segments)

/-- The text-accumulation step at the top of `observe`
(lines appending `addition` and setting the two flags). -/
def textUpdate (st : DetectorState) (new_text : List Char) : DetectorState :=
  let addition := pyStrip new_text
  if addition = [] then st
  else
    { st with
      segments := st.segments ++ [addition]
      question_active := true
      explicit_question := st.explicit_question || addition.contains '?' }

/-- The silence-tracking step of `observe` (lines 79–83). -/
def silenceUpdate (cfg : DetectorConfig) (st : DetectorState) (rms dur : ℚ) :
    DetectorState :=
  if cfg.speech_threshold ≤ rms then { st with silence_accumulator := 0 }
  else if st.question_active then
    { st with silence_accumulator := st.silence_accumulator + max dur 0 }
  else st

/-- `QuestionBoundaryDetector._looks_like_question_start(text)`. -/
def looks_like_question_start (cfg : DetectorConfig) (text : List Char) : Bool :=
  cfg.question_prefixes.any (fun p => p.isPrefixOf (toLowerL text))

/-- `QuestionBoundaryDetector._ready_to_commit(force)`. -/
def ready_to_commit (cfg : DetectorConfig) (st : DetectorState) (force : Bool) :
    Bool :=
  let text := current_text st
  if text = [] then false
  else
    let wc := word_count text
    if force = false ∧ wc < cfg.min_question_words ∧ st.explicit_question = false
    then false
    else
      let normalised := pyRStrip (toLowerL text)
      if List.isSuffixOf ['?'] normalised then true
      else if cfg.question_suffixes.any (fun s => List.isSuffixOf s normalised) then
        true
      else if cfg.question_prefixes.any (fun p => containsSub normalised p) then
        true
      else if st.explicit_question then true
      else force && decide (cfg.min_question_words ≤ wc)

/-- `QuestionBoundaryDetector._commit()`: returns `current_text or None`
and resets the state. -/
def commitResult (st : DetectorState) : Option (List Char) × DetectorState :=
  let text := current_text st
  (if text = [] then none else some text, initialState)

/-- The defensive re-activation step of `observe`
(`if not self._question_active and self._looks_like_question_start(...)`). -/
def reactivate (cfg : DetectorConfig) (st : DetectorState) (current : List Char) :
    DetectorState :=
  if st.question_active = false ∧ looks_like_question_start cfg current = true
  then { st with question_active := true }
  else st

/-- The commit decision at the end of `observe` (lines 91–97). -/
def observeDecide (cfg : DetectorConfig) (st : DetectorState)
    (current : List Char) : Option (List Char) × DetectorState :=
  if cfg.min_silence_seconds ≤ st.silence_accumulator ∧
      ready_to_commit cfg st false = true then
    commitResult st
  else if ready_to_commit cfg st true = true ∧
      cfg.max_buffer_words ≤ word_count current then
    commitResult st
  else (none, st)

/-- `QuestionBoundaryDetector.observe(chunk, new_text)` with
`chunk.rms = rms` and `chunk.duration = dur`; returns the committed
question (if any) together with the updated state. -/
def observe (cfg : DetectorConfig) (st : DetectorState) (rms dur : ℚ)
    (new_text : List Char) : Option (List Char) × DetectorState :=
  let st1 := textUpdate st new_text
  let current := current_text st1
  let st2 := silenceUpdate cfg st1 rms dur
  if current = [] then (none, st2)
  else observeDecide cfg (reactivate cfg st2 current) current

/-! ### Field lists of `AudioChunk` (from `audio_capture.py`) and the
attribute names `observe` reads off its chunk argument. -/

/-- The dataclass fields of `AudioChunk` in `audio_capture.py`. -/
def audioChunkFields : List String := ["data", "sample_rate", "timestamp"]

/-- The attribute names `QuestionBoundaryDetector.observe` reads from its
`chunk` argument (`chunk.rms`, `chunk.duration`). -/
def observeChunkFieldReads : List String := ["rms", "duration"]

/-! ### Specification-side description of the overlap search

These two predicates transcribe the specification's description of the
`_longest_overlap` search ("the last `k` characters of `previous` equal
the first `k` characters of `raw`, `k` searched from
`min(len(previous), len(raw))` down to `1`, `0` if none"), to be
compared with the implementation `longest_overlap`. -/

/-- `k` is a feasible overlap: `1 ≤ k ≤ min` of the lengths and the last
`k` characters of `previous` equal the first `k` characters of
`current`. -/
def overlapMatch (previous current : List Char) (k : Nat) : Prop :=
  1 ≤ k ∧ k ≤ min previous.length current.length ∧
    previous.drop (previous.length - k) = current.take k

/-- `k` is what the specification says the overlap search returns: the
largest feasible overlap, or `0` when none is feasible. -/
def specLongestOverlapIs (previous current : List Char) (k : Nat) : Prop :=
  (overlapMatch previous current k ∧
    ∀ j, overlapMatch previous current j → j ≤ k)
  ∨ (k = 0 ∧ ∀ j, ¬ overlapMatch previous current j)

/-! ### Helper lemmas -/

lemma dropWhile_idem (p : Char → Bool) (l : List Char) :
    List.dropWhile p (List.dropWhile p l) = List.dropWhile p l := by
  induction l with
  | nil => rfl
  | cons a l ih =>
    by_cases h : p a
    · simpa [List.dropWhile_cons, h] using ih
    · simp [List.dropWhile_cons, h]

lemma pyLStrip_idem (s : List Char) : pyLStrip (pyLStrip s) = pyLStrip s :=
  dropWhile_idem _ s

lemma pyRStrip_idem (s : List Char) : pyRStrip (pyRStrip s) = pyRStrip s := by
  simp [pyRStrip, dropWhile_idem]

lemma dropWhile_eq_self_of_prefix {p : Char → Bool} {t u : List Char}
    (ht : List.dropWhile p t = t) (hu : u <+: t) :
    List.dropWhile p u = u := by
  rw [List.dropWhile_eq_self_iff] at ht ⊢
  intro hl
  obtain ⟨r, hr⟩ := hu
  have hlt : 0 < t.length := by
    rw [← hr, List.length_append]
    omega
  have hht := ht hlt
  have hget : t.get ⟨0, hlt⟩ = u.get ⟨0, hl⟩ := by
    subst hr
    cases u with
    | nil => simp at hl
    | cons a u' => rfl
  rwa [hget] at hht

lemma pyLStrip_pyRStrip (s : List Char)
    (h : pyLStrip s = s) : pyLStrip (pyRStrip s) = pyRStrip s := by
  have hsuf : List.dropWhile isSpaceChar s.reverse <:+ s.reverse :=
    List.dropWhile_suffix _
  have hpre : pyRStrip s <+: s := by
    have h2 := hsuf.reverse
    simpa [pyRStrip] using h2
  exact dropWhile_eq_self_of_prefix h hpre

lemma pyStrip_idem (s : List Char) : pyStrip (pyStrip s) = pyStrip s := by
  unfold pyStrip
  rw [pyLStrip_pyRStrip (pyLStrip s) (pyLStrip_idem s), pyRStrip_idem]

lemma isPrefixOf_self (l : List Char) : l.isPrefixOf l = true := by
  induction l with
  | nil => rfl
  | cons a l ih => simp [List.isPrefixOf, ih]

lemma textUpdate_silence (st : DetectorState) (text : List Char) :
    (textUpdate st text).silence_accumulator = st.silence_accumulator := by
  unfold textUpdate
  by_cases h : pyStrip text = [] <;> simp [h]

lemma silenceUpdate_segments (cfg : DetectorConfig) (st : DetectorState)
    (rms dur : ℚ) : (silenceUpdate cfg st rms dur).segments = st.segments := by
  unfold silenceUpdate
  split
  · rfl
  · split <;> rfl

lemma silenceUpdate_explicit (cfg : DetectorConfig) (st : DetectorState)
    (rms dur : ℚ) :
    (silenceUpdate cfg st rms dur).explicit_question = st.explicit_question := by
  unfold silenceUpdate
  split
  · rfl
  · split <;> rfl

lemma silenceUpdate_active (cfg : DetectorConfig) (st : DetectorState)
    (rms dur : ℚ) :
    (silenceUpdate cfg st rms dur).question_active = st.question_active := by
  unfold silenceUpdate
  split
  · rfl
  · split <;> rfl

lemma reactivate_segments (cfg : DetectorConfig) (st : DetectorState)
    (current : List Char) : (reactivate cfg st current).segments = st.segments := by
  unfold reactivate
  split <;> rfl

lemma reactivate_explicit (cfg : DetectorConfig) (st : DetectorState)
    (current : List Char) :
    (reactivate cfg st current).explicit_question = st.explicit_question := by
  unfold reactivate
  split <;> rfl

lemma reactivate_silence (cfg : DetectorConfig) (st : DetectorState)
    (current : List Char) :
    (reactivate cfg st current).silence_accumulator = st.silence_accumulator := by
  unfold reactivate
  split <;> rfl

lemma current_text_congr {s t : DetectorState} (h : s.segments = t.segments) :
    current_text s = current_text t := by
  unfold current_text
  rw [h]

lemma ready_congr (cfg : DetectorConfig) {s t : DetectorState}
    (hseg : s.segments = t.segments)
    (hex : s.explicit_question = t.explicit_question) (f : Bool) :
    ready_to_commit cfg s f = ready_to_commit cfg t f := by
  unfold ready_to_commit
  rw [current_text_congr hseg, hex]

lemma longestOverlapAux_spec (p c : List Char) (n : Nat)
    (hn : n ≤ min p.length c.length) :
    (overlapMatch p c (longestOverlapAux p c n) ∧
      ∀ j, j ≤ n → overlapMatch p c j → j ≤ longestOverlapAux p c n)
    ∨ (longestOverlapAux p c n = 0 ∧ ∀ j, j ≤ n → ¬ overlapMatch p c j) := by
  induction n with
  | zero =>
    right
    refine ⟨rfl, fun j hj hm => ?_⟩
    have h1 := hm.1
    omega
  | succ n ih =>
    by_cases h : p.drop (p.length - (n + 1)) = c.take (n + 1)
    · left
      have e : longestOverlapAux p c (n + 1) = n + 1 := by
        simp [longestOverlapAux, h]
      rw [e]
      exact ⟨⟨Nat.succ_le_succ (Nat.zero_le n), hn, h⟩, fun j hj _ => hj⟩
    · have e : longestOverlapAux p c (n + 1) = longestOverlapAux p c n := by
        simp [longestOverlapAux, h]
      rw [e]
      rcases ih (le_trans (Nat.le_succ n) hn) with ⟨hm, hmax⟩ | ⟨hz, hnone⟩
      · left
        refine ⟨hm, fun j hj hmj => ?_⟩
        rcases Nat.lt_or_ge j (n + 1) with hlt | hge
        · exact hmax j (Nat.lt_succ_iff.mp hlt) hmj
        · have hj1 : j = n + 1 := by omega
          subst hj1
          exact absurd hmj.2.2 h
      · right
        refine ⟨hz, fun j hj hmj => ?_⟩
        rcases Nat.lt_or_ge j (n + 1) with hlt | hge
        · exact hnone j (Nat.lt_succ_iff.mp hlt) hmj
        · have hj1 : j = n + 1 := by omega
          subst hj1
          exact h hmj.2.2

lemma longest_overlap_spec (p c : List Char) :
    specLongestOverlapIs p c (longest_overlap p c) := by
  unfold specLongestOverlapIs longest_overlap
  rcases longestOverlapAux_spec p c (min p.length c.length) le_rfl with
    ⟨hm, hmax⟩ | ⟨hz, hnone⟩
  · exact Or.inl ⟨hm, fun j hj => hmax j hj.2.1 hj⟩
  · exact Or.inr ⟨hz, fun j hj => hnone j hj.2.1 hj⟩

lemma pyStrip_nil : pyStrip ([] : List Char) = [] := rfl

lemma extractAddition_nil (c : List Char) : extractAddition [] c = c := by
  unfold extractAddition
  simp

lemma extractAddition_self {c : List Char} (h : c ≠ []) :
    extractAddition c c = [] := by
  unfold extractAddition
  rw [if_pos ⟨h, isPrefixOf_self c⟩, List.drop_length]
  rfl

/-- C1: when both the trimmed raw text and the trimmed stored previous
transcript are non-empty, the delta returned by `_extract_new_text` is:
the remainder after the verbatim prefix, trimmed, when trimmed raw
starts with the trimmed previous transcript; otherwise trimmed raw with
its first `k` characters removed and trimmed, where `k` is the largest
length at which a suffix of previous equals a prefix of raw (searched
from `min` of the lengths down to `1`, `0` when none matches). -/
theorem C1_delta_extraction (prevT raw : List Char)
    (hraw : pyStrip raw ≠ []) (hprev : pyStrip prevT ≠ []) :
    ((pyStrip prevT).isPrefixOf (pyStrip raw) = true →
        (extract_new_text prevT raw).1 =
          pyStrip ((pyStrip raw).drop (pyStrip prevT).length))
    ∧ ((pyStrip prevT).isPrefixOf (pyStrip raw) = false →
        (extract_new_text prevT raw).1 =
            pyStrip ((pyStrip raw).drop
              (longest_overlap (pyStrip prevT) (pyStrip raw)))
          ∧ specLongestOverlapIs (pyStrip prevT) (pyStrip raw)
              (longest_overlap (pyStrip prevT) (pyStrip raw))) := by
  constructor
  · intro hpre
    unfold extract_new_text
    rw [if_neg hraw]
    unfold extractAddition
    rw [if_pos ⟨hprev, hpre⟩]
  · intro hpre
    refine ⟨?_, longest_overlap_spec _ _⟩
    unfold extract_new_text
    rw [if_neg hraw]
    unfold extractAddition
    rw [if_neg (fun hc => by rw [hpre] at hc; exact Bool.false_ne_true hc.2),
      if_pos hprev]

/-- Witness for C1 at the spec's overlap-stitching example. -/
theorem C1_delta_extraction_witness :
    ((pyStrip "the quick brown".toList).isPrefixOf
        (pyStrip "brown fox jumps".toList) = true →
      (extract_new_text "the quick brown".toList "brown fox jumps".toList).1 =
        pyStrip ((pyStrip "brown fox jumps".toList).drop
          (pyStrip "the quick brown".toList).length))
    ∧ ((pyStrip "the quick brown".toList).isPrefixOf
        (pyStrip "brown fox jumps".toList) = false →
      (extract_new_text "the quick brown".toList "brown fox jumps".toList).1 =
          pyStrip ((pyStrip "brown fox jumps".toList).drop
            (longest_overlap (pyStrip "the quick brown".toList)
              (pyStrip "brown fox jumps".toList)))
        ∧ specLongestOverlapIs (pyStrip "the quick brown".toList)
            (pyStrip "brown fox jumps".toList)
            (longest_overlap (pyStrip "the quick brown".toList)
              (pyStrip "brown fox jumps".toList))) :=
  C1_delta_extraction "the quick brown".toList "brown fox jumps".toList
    (by decide) (by decide)

/-- C6 counterexample: when `raw` trims to the empty string,
`_extract_new_text` returns before the assignment, so the stored
previous transcript keeps its old value `"abc"` instead of being set to
the trimmed raw transcript `""`. -/
theorem C6_counterexample :
    ¬ ((extract_new_text "abc".toList "   ".toList).2 =
        pyStrip "   ".toList) := by decide

/-- C6 (amended): when `raw` trims to a non-empty string, the stored
previous transcript is set to the trimmed raw; when `raw` trims to the
empty string the method returns early and the stored value is
unchanged. -/
theorem C6_state_update (prevT raw : List Char) :
    (pyStrip raw ≠ [] → (extract_new_text prevT raw).2 = pyStrip raw)
    ∧ (pyStrip raw = [] → (extract_new_text prevT raw).2 = prevT) := by
  constructor
  · intro h
    unfold extract_new_text
    rw [if_neg h]
  · intro h
    unfold extract_new_text
    rw [if_pos h]

/-- Witness for C6 (amended) on a non-empty raw transcript. -/
theorem C6_state_update_witness :
    (extract_new_text "a".toList "ab ".toList).2 = pyStrip "ab ".toList :=
  (C6_state_update "a".toList "ab ".toList).1 (by decide)

/-- C7 counterexample: starting from an empty previous transcript,
`extractNew(" a")` returns the trimmed `"a"`, not the argument `" a"`
itself, so the first call does not yield `x` verbatim. -/
theorem C7_counterexample :
    ¬ ((extract_new_text [] " a".toList).1 = " a".toList) := by decide

/-- C7 (amended): starting from an empty previous transcript, calling
`extractNew(x)` twice in a row yields the trimmed `x` on the first call
and the empty string on the second. -/
theorem C7_repeated_input (x : List Char) :
    (extract_new_text [] x).1 = pyStrip x ∧
    (extract_new_text (extract_new_text [] x).2 x).1 = [] := by
  by_cases h : pyStrip x = []
  · have e1 : extract_new_text [] x = ([], []) := by
      unfold extract_new_text
      rw [if_pos h]
    rw [e1, h]
    exact ⟨rfl, by rw [e1]⟩
  · have e1 : extract_new_text [] x = (pyStrip x, pyStrip x) := by
      unfold extract_new_text
      rw [if_neg h, pyStrip_nil, extractAddition_nil]
    refine ⟨by rw [e1], ?_⟩
    rw [e1]
    show (extract_new_text (pyStrip x) x).1 = []
    unfold extract_new_text
    rw [if_neg h, pyStrip_idem, extractAddition_self h]

/-- C10: the delta returned by `_extract_new_text` is always a trimmed
suffix of the trimmed raw transcript, and in particular is itself a
trimmed string (no leading or trailing whitespace). -/
theorem C10_delta_trimmed_suffix (prevT raw : List Char) :
    (∃ k, (extract_new_text prevT raw).1 = pyStrip ((pyStrip raw).drop k))
    ∧ pyStrip (extract_new_text prevT raw).1 = (extract_new_text prevT raw).1 := by
  by_cases h : pyStrip raw = []
  · have e : extract_new_text prevT raw = ([], prevT) := by
      unfold extract_new_text
      rw [if_pos h]
    rw [e]
    exact ⟨⟨0, by rw [h]; rfl⟩, rfl⟩
  · have e : (extract_new_text prevT raw).1 =
        extractAddition (pyStrip prevT) (pyStrip raw) := by
      unfold extract_new_text
      rw [if_neg h]
    rw [e]
    unfold extractAddition
    by_cases h1 : pyStrip prevT ≠ [] ∧
        (pyStrip prevT).isPrefixOf (pyStrip raw) = true
    · rw [if_pos h1]
      exact ⟨⟨(pyStrip prevT).length, rfl⟩, pyStrip_idem _⟩
    · rw [if_neg h1]
      by_cases h2 : pyStrip prevT ≠ []
      · rw [if_pos h2]
        exact ⟨⟨longest_overlap (pyStrip prevT) (pyStrip raw), rfl⟩,
          pyStrip_idem _⟩
      · rw [if_neg h2]
        refine ⟨⟨0, ?_⟩, pyStrip_idem raw⟩
        rw [List.drop_zero, pyStrip_idem]

lemma observe_eq (cfg : DetectorConfig) (st : DetectorState) (rms dur : ℚ)
    (text : List Char) :
    observe cfg st rms dur text =
      if current_text (textUpdate st text) = [] then
        (none, silenceUpdate cfg (textUpdate st text) rms dur)
      else
        observeDecide cfg
          (reactivate cfg (silenceUpdate cfg (textUpdate st text) rms dur)
            (current_text (textUpdate st text)))
          (current_text (textUpdate st text)) := rfl

/-- C2: `observe` returns a committed string exactly when the
accumulated text is non-empty and either the updated silence
accumulator has reached `min_silence_seconds` with the text ready to
commit in non-forced mode, or the text is ready to commit in forced
mode and its word count has reached `max_buffer_words`. -/
theorem C2_commit_condition (cfg : DetectorConfig) (st : DetectorState)
    (rms dur : ℚ) (text : List Char) :
    (observe cfg st rms dur text).1.isSome = true ↔
      (current_text (textUpdate st text) ≠ [] ∧
        ((cfg.min_silence_seconds ≤
            (silenceUpdate cfg (textUpdate st text) rms dur).silence_accumulator
          ∧ ready_to_commit cfg (silenceUpdate cfg (textUpdate st text) rms dur)
              false = true)
        ∨ (ready_to_commit cfg (silenceUpdate cfg (textUpdate st text) rms dur)
              true = true
          ∧ cfg.max_buffer_words ≤
              word_count (current_text (textUpdate st text))))) := by
  rw [observe_eq]
  by_cases hc : current_text (textUpdate st text) = []
  · rw [if_pos hc]
    simp [hc]
  · rw [if_neg hc]
    have hsil := reactivate_silence cfg
      (silenceUpdate cfg (textUpdate st text) rms dur)
      (current_text (textUpdate st text))
    have hseg := reactivate_segments cfg
      (silenceUpdate cfg (textUpdate st text) rms dur)
      (current_text (textUpdate st text))
    have hex := reactivate_explicit cfg
      (silenceUpdate cfg (textUpdate st text) rms dur)
      (current_text (textUpdate st text))
    have hready := fun f => ready_congr cfg hseg hex f
    have hct3 : current_text
        (reactivate cfg (silenceUpdate cfg (textUpdate st text) rms dur)
          (current_text (textUpdate st text))) =
        current_text (textUpdate st text) := by
      rw [current_text_congr hseg,
        current_text_congr (silenceUpdate_segments cfg (textUpdate st text) rms dur)]
    unfold observeDecide
    split_ifs with hA hB
    · simp only [commitResult, hct3, if_neg hc, Option.isSome_some, true_iff]
      refine ⟨hc, Or.inl ⟨?_, ?_⟩⟩
      · rw [← hsil]
        exact hA.1
      · rw [← hready false]
        exact hA.2
    · simp only [commitResult, hct3, if_neg hc, Option.isSome_some, true_iff]
      refine ⟨hc, Or.inr ⟨?_, hB.2⟩⟩
      rw [← hready true]
      exact hB.1
    · simp only [Option.isSome_none, Bool.false_eq_true, false_iff]
      rintro ⟨-, hAB | hAB⟩
      · exact hA ⟨by rw [hsil]; exact hAB.1, by rw [hready false]; exact hAB.2⟩
      · exact hB ⟨by rw [hready true]; exact hAB.1, hAB.2⟩

lemma ready_iff (cfg : DetectorConfig) (st : DetectorState) (force : Bool) :
    ready_to_commit cfg st force = true ↔
      (current_text st ≠ [] ∧
        (force = true ∨ cfg.min_question_words ≤ word_count (current_text st) ∨
          st.explicit_question = true) ∧
        (List.isSuffixOf ['?'] (pyRStrip (toLowerL (current_text st))) = true
          ∨ cfg.question_suffixes.any
              (fun s => List.isSuffixOf s (pyRStrip (toLowerL (current_text st)))) = true
          ∨ cfg.question_prefixes.any
              (fun p => containsSub (pyRStrip (toLowerL (current_text st))) p) = true
          ∨ st.explicit_question = true
          ∨ (force = true ∧
              cfg.min_question_words ≤ word_count (current_text st)))) := by
  by_cases h0 : current_text st = []
  · simp [ready_to_commit, h0]
  · unfold ready_to_commit
    rw [if_neg h0]
    by_cases h1 : force = false ∧
        word_count (current_text st) < cfg.min_question_words ∧
        st.explicit_question = false
    · rw [if_pos h1]
      simp only [Bool.false_eq_true, false_iff]
      rintro ⟨-, hgate, -⟩
      rcases h1 with ⟨hf, hwc, hex⟩
      rcases hgate with h | h | h
      · rw [h] at hf
        simp at hf
      · omega
      · rw [h] at hex
        simp at hex
    · rw [if_neg h1]
      have hgate : force = true ∨
          cfg.min_question_words ≤ word_count (current_text st) ∨
          st.explicit_question = true := by
        by_contra hg
        push_neg at hg
        exact h1 ⟨by simpa using hg.1, by omega, by simpa using hg.2.2⟩
      by_cases e1 : List.isSuffixOf ['?'] (pyRStrip (toLowerL (current_text st))) = true
      · rw [if_pos e1]
        simp only [true_iff]
        exact ⟨h0, hgate, Or.inl e1⟩
      · rw [if_neg e1]
        by_cases e2 : (cfg.question_suffixes.any
            (fun s => List.isSuffixOf s (pyRStrip (toLowerL (current_text st))))) = true
        · rw [if_pos e2]
          simp only [true_iff]
          exact ⟨h0, hgate, Or.inr (Or.inl e2)⟩
        · rw [if_neg e2]
          by_cases e3 : (cfg.question_prefixes.any
              (fun p => containsSub (pyRStrip (toLowerL (current_text st))) p)) = true
          · rw [if_pos e3]
            simp only [true_iff]
            exact ⟨h0, hgate, Or.inr (Or.inr (Or.inl e3))⟩
          · rw [if_neg e3]
            by_cases e4 : st.explicit_question = true
            · rw [if_pos e4]
              simp only [true_iff]
              exact ⟨h0, hgate, Or.inr (Or.inr (Or.inr (Or.inl e4)))⟩
            · rw [if_neg e4]
              constructor
              · intro hfin
                simp only [Bool.and_eq_true, decide_eq_true_eq] at hfin
                exact ⟨h0, hgate, Or.inr (Or.inr (Or.inr (Or.inr hfin)))⟩
              · rintro ⟨-, -, h | h | h | h | ⟨hf, hwc⟩⟩
                · exact absurd h e1
                · exact absurd h e2
                · exact absurd h e3
                · exact absurd h e4
                · simp only [Bool.and_eq_true, decide_eq_true_eq]
                  exact ⟨hf, hwc⟩

lemma default_suffixes_any (n : List Char) :
    (defaultCfg.question_suffixes.any (fun s => List.isSuffixOf s n)) = true ↔
      (List.isSuffixOf ['?'] n = true ∨
        ∃ sfx ∈ ["right", "correct", "okay", "ok", "yeah",
            "please"].map String.toList,
          List.isSuffixOf sfx n = true) := by
  have he : defaultCfg.question_suffixes =
      String.toList "?" :: ["right", "correct", "okay", "ok", "yeah",
        "please"].map String.toList := rfl
  have hq : String.toList "?" = ['?'] := rfl
  rw [he, List.any_cons, Bool.or_eq_true, List.any_eq_true, hq]

/-- C3: `_ready_to_commit(force)` holds exactly as specified: false on
empty text; false when not forced, the word count is below
`min_question_words` (4) and no explicit question mark was seen;
otherwise true when the lowercased right-stripped text ends with `?`,
or ends with one of the suffix lexicon
(`right, correct, okay, ok, yeah, please`), or contains a
question-opening phrase anywhere, or the explicit-question flag is set;
and when none of these match, true only when forced with word count at
least `min_question_words`. -/
theorem C3_ready_characterisation (st : DetectorState) (force : Bool) :
    ready_to_commit defaultCfg st force = true ↔
      (current_text st ≠ [] ∧
        (force = true ∨ 4 ≤ word_count (current_text st) ∨
          st.explicit_question = true) ∧
        (List.isSuffixOf ['?'] (pyRStrip (toLowerL (current_text st))) = true
          ∨ (∃ sfx ∈ ["right", "correct", "okay", "ok", "yeah",
                "please"].map String.toList,
              List.isSuffixOf sfx (pyRStrip (toLowerL (current_text st))) = true)
          ∨ (∃ opener ∈ defaultCfg.question_prefixes,
              containsSub (pyRStrip (toLowerL (current_text st))) opener = true)
          ∨ st.explicit_question = true
          ∨ (force = true ∧ 4 ≤ word_count (current_text st)))) := by
  rw [ready_iff]
  have h2 := default_suffixes_any (pyRStrip (toLowerL (current_text st)))
  have h3 : (defaultCfg.question_prefixes.any
      (fun p => containsSub (pyRStrip (toLowerL (current_text st))) p)) = true ↔
      ∃ opener ∈ defaultCfg.question_prefixes,
        containsSub (pyRStrip (toLowerL (current_text st))) opener = true :=
    List.any_eq_true
  have h4 : defaultCfg.min_question_words = 4 := rfl
  rw [h4]
  refine and_congr_right fun hne => and_congr_right fun hg => ?_
  constructor
  · rintro (h | h | h | h | h)
    · exact Or.inl h
    · rcases h2.mp h with h | h
      · exact Or.inl h
      · exact Or.inr (Or.inl h)
    · exact Or.inr (Or.inr (Or.inl (h3.mp h)))
    · exact Or.inr (Or.inr (Or.inr (Or.inl h)))
    · exact Or.inr (Or.inr (Or.inr (Or.inr h)))
  · rintro (h | h | h | h | h)
    · exact Or.inl h
    · exact Or.inr (Or.inl (h2.mpr (Or.inr h)))
    · exact Or.inr (Or.inr (Or.inl (h3.mpr h)))
    · exact Or.inr (Or.inr (Or.inr (Or.inl h)))
    · exact Or.inr (Or.inr (Or.inr (Or.inr h)))

lemma silenceUpdate_loud (cfg : DetectorConfig) (s : DetectorState)
    (rms dur : ℚ) (h : cfg.speech_threshold ≤ rms) :
    (silenceUpdate cfg s rms dur).silence_accumulator = 0 := by
  unfold silenceUpdate
  rw [if_pos h]

lemma silenceUpdate_mono (cfg : DetectorConfig) (s : DetectorState)
    (rms dur : ℚ) (h : rms < cfg.speech_threshold) :
    s.silence_accumulator ≤ (silenceUpdate cfg s rms dur).silence_accumulator := by
  unfold silenceUpdate
  rw [if_neg (not_le.mpr h)]
  by_cases ha : s.question_active = true
  · rw [if_pos ha]
    exact le_add_of_nonneg_right (le_max_right dur 0)
  · rw [if_neg ha]

lemma observeDecide_snd_cases (cfg : DetectorConfig) (s : DetectorState)
    (cur : List Char) :
    (observeDecide cfg s cur).2 = initialState ∨
      (observeDecide cfg s cur).2 = s := by
  unfold observeDecide
  split_ifs <;> simp [commitResult]

lemma observeDecide_none_snd (cfg : DetectorConfig) (s : DetectorState)
    (cur : List Char) (hct : current_text s ≠ [])
    (hn : (observeDecide cfg s cur).1 = none) :
    (observeDecide cfg s cur).2 = s := by
  unfold observeDecide at hn ⊢
  split_ifs at hn ⊢ <;> simp [commitResult, if_neg hct] at hn ⊢

/-- C4: on every `observe` call, loudness at or above `speech_threshold`
leaves the silence accumulator at `0` after the call; below threshold
the silence-tracking step adds `max(durationSeconds, 0)` exactly when
the question is active and leaves it unchanged otherwise, so across a
quiet, commit-free call the accumulator never decreases. -/
theorem C4_silence_tracking (cfg : DetectorConfig) (st : DetectorState)
    (rms dur : ℚ) (text : List Char) :
    (cfg.speech_threshold ≤ rms →
        (observe cfg st rms dur text).2.silence_accumulator = 0)
    ∧ (rms < cfg.speech_threshold →
        (silenceUpdate cfg (textUpdate st text) rms dur).silence_accumulator =
          (if (textUpdate st text).question_active = true
           then st.silence_accumulator + max dur 0
           else st.silence_accumulator))
    ∧ (rms < cfg.speech_threshold → (observe cfg st rms dur text).1 = none →
        st.silence_accumulator ≤
          (observe cfg st rms dur text).2.silence_accumulator) := by
  refine ⟨?_, ?_, ?_⟩
  · intro h
    rw [observe_eq]
    by_cases hc : current_text (textUpdate st text) = []
    · rw [if_pos hc]
      exact silenceUpdate_loud cfg (textUpdate st text) rms dur h
    · rw [if_neg hc]
      rcases observeDecide_snd_cases cfg
          (reactivate cfg (silenceUpdate cfg (textUpdate st text) rms dur)
            (current_text (textUpdate st text)))
          (current_text (textUpdate st text)) with h2 | h2 <;> rw [h2]
      · rfl
      · rw [reactivate_silence]
        exact silenceUpdate_loud cfg (textUpdate st text) rms dur h
  · intro h
    unfold silenceUpdate
    rw [if_neg (not_le.mpr h)]
    by_cases ha : (textUpdate st text).question_active = true
    · rw [if_pos ha, if_pos ha]
      show (textUpdate st text).silence_accumulator + max dur 0 = _
      rw [textUpdate_silence]
    · rw [if_neg ha, if_neg ha]
      exact textUpdate_silence st text
  · intro h hn
    rw [observe_eq] at hn ⊢
    by_cases hc : current_text (textUpdate st text) = []
    · rw [if_pos hc]
      show st.silence_accumulator ≤
        (silenceUpdate cfg (textUpdate st text) rms dur).silence_accumulator
      rw [← textUpdate_silence st text]
      exact silenceUpdate_mono cfg (textUpdate st text) rms dur h
    · rw [if_neg hc] at hn ⊢
      have hct : current_text
          (reactivate cfg (silenceUpdate cfg (textUpdate st text) rms dur)
            (current_text (textUpdate st text))) ≠ [] := by
        rw [current_text_congr (reactivate_segments cfg _ _),
          current_text_congr (silenceUpdate_segments cfg (textUpdate st text) rms dur)]
        exact hc
      rw [observeDecide_none_snd cfg _ _ hct hn, reactivate_silence]
      rw [← textUpdate_silence st text]
      exact silenceUpdate_mono cfg (textUpdate st text) rms dur h

/-- Witness for C4: a loud chunk resets the accumulator to zero. -/
theorem C4_silence_tracking_witness :
    (observe { defaultCfg with speech_threshold := 1, min_silence_seconds := 1 }
        { segments := ["hello there".toList], question_active := true,
          explicit_question := false, silence_accumulator := 3 }
        1 1 "more words".toList).2.silence_accumulator = 0 :=
  (C4_silence_tracking
    { defaultCfg with speech_threshold := 1, min_silence_seconds := 1 }
    { segments := ["hello there".toList], question_active := true,
      explicit_question := false, silence_accumulator := 3 }
    1 1 "more words".toList).1 (by decide)

lemma commitResult_fst (s : DetectorState) :
    (commitResult s).1 =
      if current_text s = [] then none else some (current_text s) := rfl

/-- C5: whenever `observe` commits, the resulting state is the initial
state (all four fields reset together); `current_text` of the initial
state is empty, so a subsequent `observe` with no text returns `none`;
and the explicit `reset()` performs the identical field reset and is
idempotent. -/
theorem C5_commit_resets (cfg : DetectorConfig) (st : DetectorState)
    (rms dur : ℚ) (text : List Char) :
    (∀ t, (observe cfg st rms dur text).1 = some t →
        (observe cfg st rms dur text).2 = initialState)
    ∧ current_text initialState = []
    ∧ (∀ r d : ℚ, ∀ tx : List Char, pyStrip tx = [] →
        (observe cfg initialState r d tx).1 = none)
    ∧ reset st = initialState
    ∧ reset (reset st) = reset st := by
  refine ⟨?_, rfl, ?_, rfl, rfl⟩
  · intro t ht
    rw [observe_eq] at ht ⊢
    by_cases hc : current_text (textUpdate st text) = []
    · rw [if_pos hc] at ht
      exact absurd ht (by simp)
    · rw [if_neg hc] at ht ⊢
      unfold observeDecide at ht ⊢
      split_ifs at ht ⊢ <;> rfl
  · intro r d tx htx
    rw [observe_eq]
    have h1 : textUpdate initialState tx = initialState := by
      unfold textUpdate
      simp [htx]
    rw [h1]
    rw [if_pos (show current_text initialState = [] from rfl)]

/-- Witness for C5: a silent, textless call right after a reset state
commits nothing. -/
theorem C5_commit_resets_witness :
    (observe defaultCfg initialState 0 1 []).1 = none :=
  (C5_commit_resets defaultCfg initialState 0 1 []).2.2.1 0 1 [] rfl

/-- C9: `observe` never returns the empty string: every returned value
is a non-empty string equal to the accumulated segments joined by
single spaces and trimmed. -/
theorem C9_commit_nonempty (cfg : DetectorConfig) (st : DetectorState)
    (rms dur : ℚ) (text : List Char) :
    ∀ t, (observe cfg st rms dur text).1 = some t →
      t ≠ [] ∧ t = current_text (textUpdate st text) := by
  intro t ht
  rw [observe_eq] at ht
  by_cases hc : current_text (textUpdate st text) = []
  · rw [if_pos hc] at ht
    exact absurd ht (by simp)
  · rw [if_neg hc] at ht
    have hct : current_text
        (reactivate cfg (silenceUpdate cfg (textUpdate st text) rms dur)
          (current_text (textUpdate st text))) =
        current_text (textUpdate st text) := by
      rw [current_text_congr (reactivate_segments cfg _ _),
        current_text_congr (silenceUpdate_segments cfg (textUpdate st text) rms dur)]
    unfold observeDecide at ht
    split_ifs at ht
    · rw [commitResult_fst, hct, if_neg hc] at ht
      have he := Option.some.inj ht
      exact ⟨he ▸ hc, he.symm⟩
    · rw [commitResult_fst, hct, if_neg hc] at ht
      have he := Option.some.inj ht
      exact ⟨he ▸ hc, he.symm⟩

/-- Witness for C9: a committing call returns the non-empty accumulated
text. -/
theorem C9_commit_nonempty_witness :
    "what is your name?".toList ≠ [] ∧
    "what is your name?".toList =
      current_text (textUpdate initialState "what is your name?".toList) :=
  C9_commit_nonempty
    { defaultCfg with speech_threshold := 1, min_silence_seconds := 0 }
    initialState 1 1 "what is your name?".toList
    "what is your name?".toList (by decide)

/-- C8: evidence of the code bug behind the totality claim — `observe`
reads the attributes `rms` and `duration` from its chunk argument, but
the `AudioChunk` dataclass in `audio_capture.py` defines neither field
(only `data`, `sample_rate`, `timestamp`), so every real call raises
`AttributeError`, contradicting the claim that `observe` never raises. -/
theorem C8_chunk_fields_missing :
    "rms" ∈ observeChunkFieldReads ∧ "duration" ∈ observeChunkFieldReads ∧
    "rms" ∉ audioChunkFields ∧ "duration" ∉ audioChunkFields := by decide
